import Mathlib

/-!
Shallow embedding of the GitHub-Scraper program (`src/main.py`, class
`GitHubEnvScraper`) and proofs about its behaviour.

The remote HTTP layer (`requests`) is modelled by a `Network` oracle: each
of the three remote operations maps its request to either a
`ReqResult.err` (any `requests.exceptions.RequestException`, covering both
transport failures and the `raise_for_status` HTTP errors) or an
`ReqResult.ok` payload holding the fields of the JSON body that the code
reads.  Library routines used by the code (`base64.b64decode`,
`bytes.decode("utf-8")`, Python's `re` module, `list(set(...))`) are
modelled executably below, faithful to their behaviour on the inputs the
proofs touch.
-/

/-- Exceptions that the Python code can raise past `get_file_content`:
`binascii.Error` from `base64.b64decode`, `UnicodeDecodeError` from
`.decode("utf-8")`.  `requests.exceptions.RequestException` never appears
here because `get_file_content` catches it (main.py:114). -/
inductive PyExn where
  | binasciiError
  | unicodeDecodeError
deriving DecidableEq

/-- Outcome of one `requests.get(...)` + `raise_for_status()` + `.json()`
round trip: `err` is any raised `RequestException` (network failure or
non-2xx status), `ok` carries the JSON fields the code reads. -/
inductive ReqResult (α : Type) where
  | err
  | ok (val : α)
deriving DecidableEq

/-- One item of the repository-search JSON that `search_repos` keeps
(main.py:50-54). -/
structure RepoInfo where
  name : String
  url : String
  stars : Nat
deriving DecidableEq

/-- One item of the code-search JSON that `find_env_files` keeps
(main.py:84-88). -/
structure EnvFile where
  path : String
  url : String
  html_url : String
deriving DecidableEq

/-- The remote API as an oracle: what each request would return. -/
structure Network where
  searchReposAt : String → ReqResult (List RepoInfo)
  findEnvAt : String → ReqResult (List EnvFile)
  fileContentAt : String → ReqResult String

/-- One element of `self.results` (main.py:190-195).  The last field is
the dict's `matches` entry (`matches` is reserved in Lean, hence the
underscore). -/
structure ScrapeResult where
  repo : String
  file_path : String
  file_url : String
  matches_ : List (String × String)
deriving DecidableEq

/-- Observable events of a scrape run that the temporal claims are about:
a content fetch (`requests.get` inside `get_file_content`) and a
`time.sleep` (duration in tenths of a second; `time.sleep(0.5)` is
`sleep 5`). -/
inductive Event where
  | fetch (url : String)
  | sleep (tenths : Nat)
deriving DecidableEq

/-- Value of one base64 alphabet character. -/
def b64val (c : Char) : Option Nat :=
  if 'A' ≤ c ∧ c ≤ 'Z' then some (c.toNat - 'A'.toNat)
  else if 'a' ≤ c ∧ c ≤ 'z' then some (c.toNat - 'a'.toNat + 26)
  else if '0' ≤ c ∧ c ≤ '9' then some (c.toNat - '0'.toNat + 52)
  else if c = '+' then some 62
  else if c = '/' then some 63
  else none

/-- Decode a run of 6-bit values into bytes: groups of 4 give 3 bytes,
a trailing group of 3 gives 2 bytes, a trailing group of 2 gives 1 byte,
a trailing single value is invalid. -/
def b64quads : List Nat → Option (List Nat)
  | [] => some []
  | [_] => none
  | [a, b] => some [(a * 4 + b / 16) % 256]
  | [a, b, c] => some [(a * 4 + b / 16) % 256, (b % 16 * 16 + c / 4) % 256]
  | a :: b :: c :: d :: rest =>
      (b64quads rest).map fun tail =>
        (a * 4 + b / 16) % 256 :: (b % 16 * 16 + c / 4) % 256 ::
          (c % 4 * 64 + d) % 256 :: tail

/-- Modelled from `base64.b64decode` (main.py:111): characters outside the
alphabet and outside the padding are discarded, data stops at the first
`=`, and the data-plus-padding length must be a multiple of 4 (otherwise
`binascii.Error`, modelled as `none`). -/
def b64decode (s : String) : Option (List Nat) :=
  let kept := s.data.filter (fun c => (b64val c).isSome ∨ c = '=')
  let dataChars := kept.takeWhile (fun c => c ≠ '=')
  let pads := (kept.drop dataChars.length).length
  if (dataChars.length + pads) % 4 = 0 then
    b64quads (dataChars.filterMap b64val)
  else
    none

/-- Is `b` a UTF-8 continuation byte? -/
def utf8cont (b : Nat) : Bool := 0x80 ≤ b ∧ b ≤ 0xBF

/-- Modelled from `bytes.decode("utf-8")` (main.py:111): strict UTF-8
decoding; `none` is a raised `UnicodeDecodeError`. -/
def utf8decode : List Nat → Option (List Char)
  | [] => some []
  | b :: rest =>
    if b < 0x80 then
      (utf8decode rest).map fun tail => Char.ofNat b :: tail
    else if 0xC2 ≤ b ∧ b ≤ 0xDF then
      match rest with
      | b2 :: rest2 =>
          if utf8cont b2 then
            (utf8decode rest2).map fun tail =>
              Char.ofNat ((b - 0xC0) * 64 + (b2 - 0x80)) :: tail
          else none
      | [] => none
    else if 0xE0 ≤ b ∧ b ≤ 0xEF then
      match rest with
      | b2 :: b3 :: rest3 =>
          if (if b = 0xE0 then 0xA0 ≤ b2 ∧ b2 ≤ 0xBF
              else if b = 0xED then 0x80 ≤ b2 ∧ b2 ≤ 0x9F
              else utf8cont b2) ∧ utf8cont b3 then
            (utf8decode rest3).map fun tail =>
              Char.ofNat ((b - 0xE0) * 4096 + (b2 - 0x80) * 64 + (b3 - 0x80)) :: tail
          else none
      | _ => none
    else if 0xF0 ≤ b ∧ b ≤ 0xF4 then
      match rest with
      | b2 :: b3 :: b4 :: rest4 =>
          if (if b = 0xF0 then 0x90 ≤ b2 ∧ b2 ≤ 0xBF
              else if b = 0xF4 then 0x80 ≤ b2 ∧ b2 ≤ 0x8F
              else utf8cont b2) ∧ utf8cont b3 ∧ utf8cont b4 then
            (utf8decode rest4).map fun tail =>
              Char.ofNat ((b - 0xF0) * 262144 + (b2 - 0x80) * 4096 +
                (b3 - 0x80) * 64 + (b4 - 0x80)) :: tail
          else none
      | _ => none
    else none

/-- `GitHubEnvScraper.get_file_content` (main.py:95-116).  The `try` block
covers the request, `raise_for_status`, `.json()`, the base64 decode and
the UTF-8 decode, but the `except` clause catches only
`requests.exceptions.RequestException`: a decode failure escapes as an
uncaught exception (`Except.error`). -/
def get_file_content (net : Network) (file_url : String) : Except PyExn String :=
  match net.fileContentAt file_url with
  | .err => Except.ok ""
  | .ok b64str =>
    match b64decode b64str with
    | none => Except.error PyExn.binasciiError
    | some bytes =>
      match utf8decode bytes with
      | none => Except.error PyExn.unicodeDecodeError
      | some chars => Except.ok (String.mk chars)

/-- `GitHubEnvScraper.search_repos` (main.py:24-59): on any
`RequestException` it prints and returns the empty list; otherwise it keeps
the first `max_repos` items. -/
def search_repos (net : Network) (query : String) (max_repos : Nat) : List RepoInfo :=
  match net.searchReposAt query with
  | .err => []
  | .ok items => items.take max_repos

/-- `GitHubEnvScraper.find_env_files` (main.py:61-93): on any
`RequestException` it prints and returns the empty list. -/
def find_env_files (net : Network) (repo_name : String) : List EnvFile :=
  match net.findEnvAt repo_name with
  | .err => []
  | .ok items => items

/-! ## The pattern engine: a model of Python's `re` as used at main.py:129-142
(`re.compile(pattern, re.MULTILINE | re.IGNORECASE)` and `regex.findall`). -/

/-- Predefined character classes reachable from the scraper's patterns. -/
inductive PC where
  | space
  | digit
  | word
deriving DecidableEq

/-- One item of a bracket character class. -/
inductive CI where
  | lit (c : Char)
  | range (lo hi : Char)
  | pcls (neg : Bool) (p : PC)
deriving DecidableEq

/-- Regex abstract syntax.  `a?` is parsed as `alt a eps` and `a+` as
`seq a (star a)`, so greedy preference order is preserved. -/
inductive RE where
  | eps
  | chr (c : Char)
  | cls (neg : Bool) (items : List CI)
  | anyc
  | bol
  | eol
  | seq (a b : RE)
  | alt (a b : RE)
  | star (a : RE)
  | group (idx : Nat) (a : RE)
deriving DecidableEq

def pcMatch (p : PC) (c : Char) : Bool :=
  match p with
  | .space => c = ' ' ∨ c = '\t' ∨ c = '\n' ∨ c = '\r' ∨ c = Char.ofNat 11 ∨ c = Char.ofNat 12
  | .digit => '0' ≤ c ∧ c ≤ '9'
  | .word => ('a' ≤ c ∧ c ≤ 'z') ∨ ('A' ≤ c ∧ c ≤ 'Z') ∨ ('0' ≤ c ∧ c ≤ '9') ∨ c = '_'

def ciMatchRaw (i : CI) (c : Char) : Bool :=
  match i with
  | .lit d => c = d
  | .range lo hi => lo ≤ c ∧ c ≤ hi
  | .pcls neg p => xor neg (pcMatch p c)

/-- `re.IGNORECASE`: a class item also matches the other-case variant. -/
def ciMatch (i : CI) (c : Char) : Bool :=
  ciMatchRaw i c ∨ ciMatchRaw i c.toLower ∨ ciMatchRaw i c.toUpper

def clsMatch (neg : Bool) (items : List CI) (c : Char) : Bool :=
  xor neg (items.any fun i => ciMatch i c)

/-- `re.IGNORECASE` comparison of a pattern literal with a subject char. -/
def charEqCI (p c : Char) : Bool := p.toLower = c.toLower

/-- Escape sequences in atom position (`\s` and friends; escaped
punctuation is the literal character; other escapes are not modelled and
compile to an error). -/
def escAtom (c : Char) : Option RE :=
  if c = 's' then some (.cls false [.pcls false .space])
  else if c = 'S' then some (.cls false [.pcls true .space])
  else if c = 'd' then some (.cls false [.pcls false .digit])
  else if c = 'D' then some (.cls false [.pcls true .digit])
  else if c = 'w' then some (.cls false [.pcls false .word])
  else if c = 'W' then some (.cls false [.pcls true .word])
  else if c.isAlpha ∨ c.isDigit then none
  else some (.chr c)

/-- Escape sequences inside a bracket class. -/
def escCI (c : Char) : Option CI :=
  if c = 's' then some (.pcls false .space)
  else if c = 'S' then some (.pcls true .space)
  else if c = 'd' then some (.pcls false .digit)
  else if c = 'D' then some (.pcls true .digit)
  else if c = 'w' then some (.pcls false .word)
  else if c = 'W' then some (.pcls true .word)
  else if c.isAlpha ∨ c.isDigit then none
  else some (.lit c)

/-- Parse the items of a bracket class up to the closing `]`; a dangling
class is a compile error (`none`), as in `re.error`. -/
def parseClsItems (fuel : Nat) (cs : List Char) : Option (List CI × List Char) :=
  match fuel with
  | 0 => none
  | fuel+1 =>
    match cs with
    | [] => none
    | ']' :: rest => some ([], rest)
    | '\\' :: [] => none
    | '\\' :: e :: rest =>
        match escCI e with
        | none => none
        | some i => (parseClsItems fuel rest).map fun pr => (i :: pr.1, pr.2)
    | c :: '-' :: ']' :: rest => some ([CI.lit c, CI.lit '-'], rest)
    | c :: '-' :: '\\' :: e :: rest =>
        match escCI e with
        | some (CI.lit d) => (parseClsItems fuel rest).map fun pr => (CI.range c d :: pr.1, pr.2)
        | _ => none
    | c :: '-' :: d :: rest => (parseClsItems fuel rest).map fun pr => (CI.range c d :: pr.1, pr.2)
    | c :: rest => (parseClsItems fuel rest).map fun pr => (CI.lit c :: pr.1, pr.2)

/-- Recursive-descent parser for the pattern grammar, one function over a
level code to keep the recursion structural in `fuel` (so the kernel can
evaluate it): level 0 is alternation, 1 concatenation, 2 a repeated atom,
3 an atom.  State: remaining input and the next capturing-group number
(Python numbers groups from 1 in order of their opening parenthesis).
A quantifier with nothing to repeat, an unclosed group, a dangling escape
and unsupported `(?...)` extensions are compile errors (`none`), as in
`re.error`. -/
def parseRE (fuel : Nat) (lvl : Nat) (cs : List Char) (g : Nat) :
    Option (RE × List Char × Nat) :=
  match fuel with
  | 0 => none
  | fuel+1 =>
    match lvl with
    | 0 =>
      match parseRE fuel 1 cs g with
      | none => none
      | some (r, rest, g1) =>
        match rest with
        | '|' :: rest2 =>
            match parseRE fuel 0 rest2 g1 with
            | none => none
            | some (r2, rest3, g2) => some (.alt r r2, rest3, g2)
        | _ => some (r, rest, g1)
    | 1 =>
      match cs with
      | [] => some (.eps, [], g)
      | ')' :: _ => some (.eps, cs, g)
      | '|' :: _ => some (.eps, cs, g)
      | _ =>
        match parseRE fuel 2 cs g with
        | none => none
        | some (r, rest, g1) =>
          match parseRE fuel 1 rest g1 with
          | none => none
          | some (r2, rest2, g2) => some (.seq r r2, rest2, g2)
    | 2 =>
      match parseRE fuel 3 cs g with
      | none => none
      | some (r, rest, g1) =>
        match rest with
        | '?' :: rest2 => some (.alt r .eps, rest2, g1)
        | '*' :: rest2 => some (.star r, rest2, g1)
        | '+' :: rest2 => some (.seq r (.star r), rest2, g1)
        | _ => some (r, rest, g1)
    | _ =>
      match cs with
      | [] => none
      | '(' :: '?' :: ':' :: rest =>
          match parseRE fuel 0 rest g with
          | some (r, ')' :: rest2, g1) => some (r, rest2, g1)
          | _ => none
      | '(' :: '?' :: _ => none
      | '(' :: rest =>
          match parseRE fuel 0 rest (g+1) with
          | some (r, ')' :: rest2, g1) => some (.group g r, rest2, g1)
          | _ => none
      | '[' :: '^' :: rest =>
          match parseClsItems fuel rest with
          | some (items, rest2) => some (.cls true items, rest2, g)
          | none => none
      | '[' :: rest =>
          match parseClsItems fuel rest with
          | some (items, rest2) => some (.cls false items, rest2, g)
          | none => none
      | '\\' :: [] => none
      | '\\' :: e :: rest =>
          match escAtom e with
          | some r => some (r, rest, g)
          | none => none
      | '.' :: rest => some (.anyc, rest, g)
      | '^' :: rest => some (.bol, rest, g)
      | '$' :: rest => some (.eol, rest, g)
      | '?' :: _ => none
      | '*' :: _ => none
      | '+' :: _ => none
      | c :: rest => some (.chr c, rest, g)

/-- `re.compile(pattern, re.MULTILINE | re.IGNORECASE)` (main.py:133):
`some (ast, numGroups)` on success, `none` for `re.error`. -/
def compile (p : String) : Option (RE × Nat) :=
  match parseRE (4 * p.length + 16) 0 p.data 1 with
  | some (r, [], g) => some (r, g - 1)
  | _ => none

/-- Capture records: `(group index, start, stop)`, most recent first. -/
abbrev Caps := List (Nat × Nat × Nat)

/-- Size of a regex AST, used to budget matcher fuel. -/
def reSize : RE → Nat
  | .seq a b => reSize a + reSize b + 1
  | .alt a b => reSize a + reSize b + 1
  | .star a => reSize a + 1
  | .group _ a => reSize a + 1
  | _ => 1

/-- All ways `re` can match `s` starting at `pos`, as `(end, captures)`
pairs listed in Python's backtracking preference order (greedy operators
first, left alternative first); the head is the match Python's engine
finds.  `fuel` bounds the recursion and is chosen large enough by the
callers below. -/
def mall (fuel : Nat) (re : RE) (s : List Char) (pos : Nat) (caps : Caps) :
    List (Nat × Caps) :=
  match fuel with
  | 0 => []
  | fuel+1 =>
    match re with
    | .eps => [(pos, caps)]
    | .chr c =>
        match s.get? pos with
        | some d => if charEqCI c d then [(pos+1, caps)] else []
        | none => []
    | .cls neg items =>
        match s.get? pos with
        | some d => if clsMatch neg items d then [(pos+1, caps)] else []
        | none => []
    | .anyc =>
        match s.get? pos with
        | some d => if d = '\n' then [] else [(pos+1, caps)]
        | none => []
    | .bol => if pos = 0 ∨ s.get? (pos-1) = some '\n' then [(pos, caps)] else []
    | .eol => if pos = s.length ∨ s.get? pos = some '\n' then [(pos, caps)] else []
    | .seq a b => (mall fuel a s pos caps).flatMap fun pc => mall fuel b s pc.1 pc.2
    | .alt a b => mall fuel a s pos caps ++ mall fuel b s pos caps
    | .star a =>
        ((mall fuel a s pos caps).filter fun pc => pc.1 ≠ pos).flatMap
          (fun pc => mall fuel (.star a) s pc.1 pc.2) ++ [(pos, caps)]
    | .group i a => (mall fuel a s pos caps).map fun pc => (pc.1, (i, pos, pc.1) :: pc.2)

/-- Matcher fuel budget for a regex of size `sz` on a subject of length
`n`: ample for the backtracking depth, which is bounded by pattern size
per star iteration and by the subject length in iterations. -/
def reFuel (sz n : Nat) : Nat := (sz + 4) * (n + 4) + 64

/-- The leftmost match of `re` at or after `pos`: Python's `re.search`
scan loop, trying each start position in turn. -/
def searchFrom (mf fuel : Nat) (re : RE) (s : List Char) (pos : Nat) :
    Option (Nat × Nat × Caps) :=
  match fuel with
  | 0 => none
  | fuel+1 =>
    if s.length < pos then none
    else
      match (mall mf re s pos []).head? with
      | some pc => some (pos, pc.1, pc.2)
      | none => searchFrom mf fuel re s (pos+1)

/-- The spans of all non-overlapping matches from `pos` on, leftmost
first; after each match the scan resumes at its end, or one character
further if the match was empty (Python's `findall` loop). -/
def findallSpans (mf fuel : Nat) (re : RE) (s : List Char) (pos : Nat) :
    List (Nat × Nat × Caps) :=
  match fuel with
  | 0 => []
  | fuel+1 =>
    match searchFrom mf (s.length + 2 - pos) re s pos with
    | none => []
    | some sp => sp :: findallSpans mf fuel re s (max sp.2.1 (sp.1 + 1))

/-- Python slice `s[a:b]`. -/
def sliceStr (s : List Char) (a b : Nat) : String := String.mk ((s.drop a).take (b - a))

/-- The most recent capture of group `i`. -/
def capLookup (caps : Caps) (i : Nat) : Option (Nat × Nat) :=
  (caps.find? fun t => t.1 == i).map fun t => t.2

/-- What `re.findall` reports for one match: the text of group 1 when the
pattern has a capturing group (the empty string if the group did not
participate), the whole matched span when it has none.  The scraper's
rules have at most one group; patterns with several groups (for which
Python returns tuples) are outside the model. -/
def spanValue (s : List Char) (ng : Nat) (sp : Nat × Nat × Caps) : String :=
  if ng = 0 then sliceStr s sp.1 sp.2.1
  else
    match capLookup sp.2.2 1 with
    | some ab => sliceStr s ab.1 ab.2
    | none => ""

/-- `regex.findall(content)` (main.py:134) on a compiled regex with `ng`
capturing groups. -/
def findallRE (re : RE) (ng : Nat) (content : String) : List String :=
  let s := content.data
  (findallSpans (reFuel (reSize re) s.length) (s.length + 2) re s 0).map (spanValue s ng)

/-- Log line for a pattern that failed to compile, modelling the `print`
at main.py:140 (the concrete `re.error` text is not modelled). -/
def invalid_pattern_log (p : String) : String := "Invalid regex pattern: " ++ p

/-- The matches one rule contributes in one evaluation call. -/
def rule_matches (content : String) (p : String) : List (String × String) :=
  match compile p with
  | none => []
  | some rg => (findallRE rg.1 rg.2 content).map fun v => (p, v)

/-- `GitHubEnvScraper.apply_regex_patterns` (main.py:118-142).  First
component: the returned `matches` list, accumulated over the patterns in
input order.  Second component: the lines printed for patterns whose
compilation raised `re.error` (caught at main.py:139, loop continues). -/
def apply_regex_patterns (content : String) (patterns : List String) :
    List (String × String) × List String :=
  match patterns with
  | [] => ([], [])
  | p :: rest =>
    let tail := apply_regex_patterns content rest
    match compile p with
    | none => (tail.1, invalid_pattern_log p :: tail.2)
    | some rg => ((findallRE rg.1 rg.2 content).map (fun v => (p, v)) ++ tail.1, tail.2)

/-! ## The scan orchestrator (`GitHubEnvScraper.scrape`, main.py:144-199) -/

/-- Modelled from `list(set(xs))` (main.py:163): one occurrence of each
element.  CPython's set iteration order is unspecified, so any
duplicate-free list with the same membership is a faithful model; the
claims about this step are order-insensitive. -/
def pySetList (xs : List String) : List String := xs.dedup

/-- The repository-resolution prefix of `scrape` (main.py:154-163):
`all_repos = repos.copy()`, extended with the search-result names, then
deduplicated. -/
def resolve_repos (repos searchNames : List String) : List String :=
  pySetList (repos ++ searchNames)

/-- The inner file loop of `scrape` (main.py:179-199) over one
repository's `.env` files.  Returns the updated `self.results`, the trace
of content-fetch and sleep events, and the exception, if any, that escaped
`get_file_content` (aborting the loop before its `time.sleep`). -/
def scrapeFiles (net : Network) (patterns : List String) (repo_name : String) :
    List EnvFile → List ScrapeResult → List ScrapeResult × List Event × Option PyExn
  | [], acc => (acc, [], none)
  | f :: rest, acc =>
    match get_file_content net f.url with
    | .error e => (acc, [Event.fetch f.url], some e)
    | .ok content =>
      let acc' :=
        if content = "" then acc
        else
          let ms := (apply_regex_patterns content patterns).1
          if ms = [] then acc
          else acc ++ [ScrapeResult.mk repo_name f.path f.html_url ms]
      let out := scrapeFiles net patterns repo_name rest acc'
      (out.1, Event.fetch f.url :: Event.sleep 5 :: out.2.1, out.2.2)

/-- The outer repository loop of `scrape` (main.py:167-199). -/
def scrapeRepos (net : Network) (patterns : List String) :
    List String → List ScrapeResult → List ScrapeResult × List Event × Option PyExn
  | [], acc => (acc, [], none)
  | r :: rest, acc =>
    let files := find_env_files net r
    let out := scrapeFiles net patterns r files acc
    match out.2.2 with
    | some e => (out.1, out.2.1, some e)
    | none =>
      let out2 := scrapeRepos net patterns rest out.1
      (out2.1, out.2.1 ++ out2.2.1, out2.2.2)

/-- `GitHubEnvScraper.scrape` (main.py:144-199).  `st` is `self.results`
on entry; the first component of the result is `self.results` on exit
(the instance keeps its partial results even when an uncaught decode
exception, reported in the third component, aborts the run). -/
def scrape (net : Network) (st : List ScrapeResult) (repos patterns : List String)
    (search_query : Option String) (max_repos : Nat) :
    List ScrapeResult × List Event × Option PyExn :=
  let searchNames :=
    match search_query with
    | some q => (search_repos net q max_repos).map fun ri => ri.name
    | none => []
  let all_repos := resolve_repos repos searchNames
  scrapeRepos net patterns all_repos st

/-! ## The report sink (`GitHubEnvScraper.save_results`, main.py:201-230),
modelled as the ordered list of strings passed to `f.write`. -/

/-- `"=" * 80 + "\n\n"` (main.py:211, 228). -/
def eqDelim : String := String.mk (List.replicate 80 (Char.ofNat 61)) ++ "\n\n"

/-- `"-" * 40 + "\n"` (main.py:221). -/
def dashDelim : String := String.mk (List.replicate 40 (Char.ofNat 45)) ++ "\n"

/-- The writes of the per-result block (main.py:217-228). -/
def resultWrites (r : ScrapeResult) : List String :=
  ["Repository: " ++ r.repo ++ "\n",
   "File: " ++ r.file_path ++ "\n",
   "URL: " ++ r.file_url ++ "\n",
   dashDelim]
  ++ (r.matches_.flatMap fun pm =>
      ["Pattern: " ++ pm.1 ++ "\n", "Match: " ++ pm.2 ++ "\n", "\n"])
  ++ [eqDelim]

/-- `GitHubEnvScraper.save_results` (main.py:201-230): the sequence of
strings written to the output file, in write order, for a given
`datetime.now()` rendering `now` and a given `self.results`. -/
def save_results_writes (now : String) (results : List ScrapeResult) : List String :=
  ["GitHub .env File Scan Results\n",
   "Generated: " ++ now ++ "\n",
   eqDelim]
  ++ (if results = [] then ["No matches found.\n"] else results.flatMap resultWrites)

/-- The full report text. -/
def save_results_text (now : String) (results : List ScrapeResult) : String :=
  String.join (save_results_writes now results)

/-- Character-list prefix test, recursing on the first list so that it
reduces even when the tail of the second is not a literal. -/
def hasPrefixCh : List Char → List Char → Bool
  | [], _ => true
  | p :: ps, cs =>
    match cs with
    | [] => false
    | c :: cs2 => (p == c) && hasPrefixCh ps cs2

/-- Does a written chunk carry a rule label, i.e. start with the
`"Pattern: "` prefix (main.py:224)?  Used to read the match order back off
the report. -/
def isPatternWrite (c : String) : Bool := hasPrefixCh "Pattern: ".data c.data

/-! ## A heap model of the Python lists touched by the resolve step, for
the frame claim about the caller's `repos` argument. -/

/-- A tiny heap of Python list objects: cell contents plus the next fresh
address. -/
structure PyHeap where
  cells : Nat → List String
  next : Nat

def heapGet (h : PyHeap) (r : Nat) : List String := h.cells r

def heapAlloc (h : PyHeap) (v : List String) : PyHeap × Nat :=
  (PyHeap.mk (fun i => if i = h.next then v else h.cells i) (h.next + 1), h.next)

def heapSet (h : PyHeap) (r : Nat) (v : List String) : PyHeap :=
  PyHeap.mk (fun i => if i = r then v else h.cells i) h.next

/-- `repos.copy()` (main.py:154): allocates a fresh list object. -/
def list_copy (h : PyHeap) (r : Nat) : PyHeap × Nat := heapAlloc h (heapGet h r)

/-- `all_repos.extend(names)` (main.py:160): mutates the list in place. -/
def list_extend (h : PyHeap) (r : Nat) (xs : List String) : PyHeap :=
  heapSet h r (heapGet h r ++ xs)

/-- The resolve step of `scrape` (main.py:154-163) at the level of list
objects: copy the caller's list, extend the copy with the search names
when a query was given, then rebind `all_repos` to the fresh list built by
`list(set(all_repos))`.  Returns the heap and the address `all_repos`
holds afterwards. -/
def resolve_all_repos (h : PyHeap) (reposRef : Nat) (searchNames : Option (List String)) :
    PyHeap × Nat :=
  let hr := list_copy h reposRef
  let h2 :=
    match searchNames with
    | some ns => list_extend hr.1 hr.2 ns
    | none => hr.1
  heapAlloc h2 (pySetList (heapGet h2 hr.2))

/-! ## Trace predicates for the rate-limit claim -/

/-- Walk an event trace; the Boolean state says whether a fetch has
happened with no sleep yet after it.  `none` means two content fetches
with no intervening sleep. -/
def sepState : Bool → List Event → Option Bool
  | b, [] => some b
  | _, Event.sleep _ :: rest => sepState false rest
  | b, Event.fetch _ :: rest => if b then none else sepState true rest

/-- Every two content fetches have a sleep between them. -/
def delaySeparated (t : List Event) : Bool := (sepState false t).isSome

def countFetch (t : List Event) : Nat := t.countP fun e => match e with
  | Event.fetch _ => true
  | _ => false

def countSleep (t : List Event) : Nat := t.countP fun e => match e with
  | Event.sleep _ => true
  | _ => false

/-- Total slept time, in tenths of a second. -/
def totalSleepTenths (t : List Event) : Nat :=
  (t.map fun e => match e with
    | Event.sleep d => d
    | _ => 0).sum

/-! ## Concrete fixtures used by witnesses and counterexamples -/

/-- The single-quote character, written by code point to keep string
literals quote-free. -/
def squote : Char := Char.ofNat 39

/-- The API-key rule from the claim and from main.py:252. -/
def c6pattern : String :=
  "(?:api[_-]?key)\\s*=\\s*[\"" ++ String.singleton squote
    ++ "]?([a-zA-Z0-9_\\-]+)[\"" ++ String.singleton squote ++ "]?"

/-- A candidate file fixture. -/
def envFileW : EnvFile := EnvFile.mk ".env" "u1" "h1"

/-- A network where every request raises a `RequestException`. -/
def netReqErr : Network :=
  Network.mk (fun _ => ReqResult.err) (fun _ => ReqResult.err) (fun _ => ReqResult.err)

/-- A network whose content endpoint returns valid base64 for the single
byte `0xFF`, which is not valid UTF-8: the decode raises. -/
def netDecodeErr : Network :=
  Network.mk (fun _ => ReqResult.err) (fun _ => ReqResult.ok [envFileW])
    (fun _ => ReqResult.ok "/w==")

/-- A network with one candidate file whose content fetch fails, so
`get_file_content` returns the empty string. -/
def netEmptyContent : Network :=
  Network.mk (fun _ => ReqResult.err) (fun _ => ReqResult.ok [envFileW])
    (fun _ => ReqResult.err)

/-- A network with one candidate file whose content decodes to `"a=b"`
(base64 `"YT1i"`). -/
def netOkContent : Network :=
  Network.mk (fun _ => ReqResult.err) (fun _ => ReqResult.ok [envFileW])
    (fun _ => ReqResult.ok "YT1i")

/-- A one-cell heap whose address 0 holds the caller's repository list. -/
def heap0 : PyHeap := PyHeap.mk (fun i => if i = 0 then ["x/y", "x/y"] else []) 1

/-! ## Claim C1 -/

/-- C1 counterexample: with a response body that is valid base64 of the
byte `0xFF` (not valid UTF-8), `get_file_content` does not return the
empty string: the `UnicodeDecodeError` escapes it (first conjunct) and
aborts the whole `scrape` run (second conjunct), so the DecodeError class
is not caught at the operation boundary as the claim states. -/
theorem c1_decode_error_escapes_cex :
    get_file_content netDecodeErr "u1" = Except.error PyExn.unicodeDecodeError ∧
    (scrape netDecodeErr [] ["o/r"] ["(a)"] none 10).2.2
      = some PyExn.unicodeDecodeError := by
  exact ⟨rfl, by decide⟩

/-- C1 (amended): `get_file_content` converts every
`requests.exceptions.RequestException` (network failure or non-2xx
status) to the empty string, and the only errors that escape it are
decode failures of a successfully fetched body: malformed base64 or
bytes that are not valid UTF-8. -/
theorem c1_transport_errors_contained (net : Network) (url : String) :
    (net.fileContentAt url = ReqResult.err → get_file_content net url = Except.ok "") ∧
    (∀ e : PyExn, get_file_content net url = Except.error e →
      ∃ b : String, net.fileContentAt url = ReqResult.ok b ∧
        (b64decode b = none ∨ ∃ bs, b64decode b = some bs ∧ utf8decode bs = none)) := by
  constructor
  · intro h
    simp [get_file_content, h]
  · intro e he
    cases hf : net.fileContentAt url with
    | err => simp [get_file_content, hf] at he
    | ok b =>
      cases hb : b64decode b with
      | none => exact ⟨b, rfl, Or.inl hb⟩
      | some bs =>
        cases hu : utf8decode bs with
        | none => exact ⟨b, rfl, Or.inr ⟨bs, hb, hu⟩⟩
        | some chars => simp [get_file_content, hf, hb, hu] at he

/-- Witness for `c1_transport_errors_contained` at concrete networks. -/
theorem c1_transport_errors_contained_witness :
    get_file_content netReqErr "u" = Except.ok "" ∧
    (∃ b : String, netDecodeErr.fileContentAt "u" = ReqResult.ok b ∧
      (b64decode b = none ∨ ∃ bs, b64decode b = some bs ∧ utf8decode bs = none)) :=
  ⟨(c1_transport_errors_contained netReqErr "u").1 rfl,
   (c1_transport_errors_contained netDecodeErr "u").2 PyExn.unicodeDecodeError rfl⟩

/-! ## Claim C2, counterexample part -/

/-- C2 counterexample: a processed candidate file whose fetch failed has
fetched content `""`; evaluating that content against the rule set
`["(a*)"]` produces one Match (Python: `re.findall` of `(a*)` on the
empty string returns `[""]`), yet `scrape` appends no Finding, because the
`if content:` guard at main.py:185 skips evaluation entirely.  So "a
Finding is appended iff evaluation produced at least one Match" fails. -/
theorem c2_finding_iff_cex :
    (apply_regex_patterns "" ["(a*)"]).1 = [("(a*)", "")] ∧
    get_file_content netEmptyContent "u1" = Except.ok "" ∧
    (scrape netEmptyContent [] ["o/r"] ["(a*)"] none 10).1 = [] := by
  exact ⟨by decide, rfl, by decide⟩

/-! ## Claim C5 -/

/-- C5: the resolved repository list `scrape` iterates over holds each
identifier of the explicit-plus-search union exactly once, whatever the
duplication in the inputs; in particular the claim's scenario with
`a/b` duplicated in both sources resolves to a single entry. -/
theorem c5_resolved_repos_unique (repos searchNames : List String) (r : String) :
    (resolve_repos repos searchNames).count r
        = (if r ∈ repos ++ searchNames then 1 else 0) ∧
    resolve_repos ["a/b", "a/b"] ["a/b"] = ["a/b"] := by
  constructor
  · simpa [resolve_repos, pySetList] using List.count_dedup (repos ++ searchNames) r
  · decide

/-! ## Claim C6 -/

/-- C6: on content `API_KEY="abc123"` the API-key rule yields exactly the
Match `(rule, "abc123")` (first conjunct); the rule compiles with exactly
one capturing group (second conjunct); and the full matched span is the
whole 16-character line, so the reported value is the captured group's
text, not the full span (third conjunct). -/
theorem c6_match_is_captured_group :
    (apply_regex_patterns "API_KEY=\"abc123\"" [c6pattern]).1
        = [(c6pattern, "abc123")] ∧
    (compile c6pattern).map (fun rg => rg.2) = some 1 ∧
    (compile c6pattern).map (fun rg =>
        (findallSpans (reFuel (reSize rg.1) 16) 18 rg.1 "API_KEY=\"abc123\"".data 0).map
          fun sp => sliceStr "API_KEY=\"abc123\"".data sp.1 sp.2.1)
      = some ["API_KEY=\"abc123\""] := by
  exact ⟨by decide, by decide, by decide⟩

/-! ## Claim C7 -/

/-- C7: with no accumulated Findings, `save_results` still writes the
title, the generation timestamp and the delimiter, followed by the
explicit no-matches marker, and the full text is exactly header plus
marker (never an empty body). -/
theorem c7_empty_report_marker (now : String) :
    save_results_writes now [] =
      ["GitHub .env File Scan Results\n", "Generated: " ++ now ++ "\n", eqDelim,
       "No matches found.\n"] ∧
    save_results_text now [] =
      "GitHub .env File Scan Results\n" ++ ("Generated: " ++ now ++ "\n")
        ++ eqDelim ++ "No matches found.\n" := by
  exact ⟨rfl, rfl⟩

/-! ## Claim C9 -/

/-- C9: the resolve step works on `repos.copy()`: after it runs, the
caller's list object is unchanged (first conjunct), and the list object
`all_repos` ends up bound to is the deduplicated union, living at a fresh
address (second conjunct). -/
theorem c9_caller_repos_list_unchanged (h : PyHeap) (reposRef : Nat)
    (ns : Option (List String)) (hv : reposRef < h.next) :
    heapGet (resolve_all_repos h reposRef ns).1 reposRef = heapGet h reposRef ∧
    heapGet (resolve_all_repos h reposRef ns).1 (resolve_all_repos h reposRef ns).2
      = resolve_repos (heapGet h reposRef) (ns.getD []) := by
  have h1 : reposRef ≠ h.next := by omega
  have h2 : reposRef ≠ h.next + 1 := by omega
  cases ns with
  | none =>
    constructor
    · simp [resolve_all_repos, list_copy, heapAlloc, heapGet, h1, h2]
    · simp [resolve_all_repos, list_copy, heapAlloc, heapGet, resolve_repos]
  | some l =>
    constructor
    · simp [resolve_all_repos, list_copy, list_extend, heapAlloc, heapSet, heapGet, h1, h2]
    · simp [resolve_all_repos, list_copy, list_extend, heapAlloc, heapSet, heapGet,
        resolve_repos]

/-- Witness for `c9_caller_repos_list_unchanged` on a concrete heap with
the claim's duplicated identifiers. -/
theorem c9_caller_repos_list_unchanged_witness :
    heapGet (resolve_all_repos heap0 0 (some ["x/y"])).1 0 = heapGet heap0 0 ∧
    heapGet (resolve_all_repos heap0 0 (some ["x/y"])).1
        (resolve_all_repos heap0 0 (some ["x/y"])).2
      = resolve_repos (heapGet heap0 0) ((some ["x/y"]).getD []) :=
  c9_caller_repos_list_unchanged heap0 0 (some ["x/y"]) (by decide)

/-! ## Claim C3 -/

/-- `apply_regex_patterns` distributes over concatenation of rule lists,
in both its matches and its log. -/
theorem apply_regex_patterns_append (content : String) (l1 l2 : List String) :
    apply_regex_patterns content (l1 ++ l2)
      = ((apply_regex_patterns content l1).1 ++ (apply_regex_patterns content l2).1,
         (apply_regex_patterns content l1).2 ++ (apply_regex_patterns content l2).2) := by
  induction l1 with
  | nil => simp [apply_regex_patterns]
  | cons p rest ih =>
    simp only [List.cons_append, apply_regex_patterns]
    cases hc : compile p <;> simp [ih]

/-- C3: a rule whose pattern fails to compile does not abort the
evaluation: the call still returns, the malformed rule is reported in the
log exactly where it occurred, and the matches are exactly those of the
remaining rules, for every content — i.e. for every evaluation call of
the run, since `re.compile` of a fixed string is deterministic. -/
theorem c3_malformed_rule_isolated (content : String) (pre post : List String)
    (p : String) (hp : compile p = none) :
    (apply_regex_patterns content (pre ++ p :: post)).1
        = (apply_regex_patterns content (pre ++ post)).1 ∧
    (apply_regex_patterns content (pre ++ p :: post)).2
        = (apply_regex_patterns content pre).2
          ++ invalid_pattern_log p :: (apply_regex_patterns content post).2 := by
  have h1 := apply_regex_patterns_append content pre (p :: post)
  have h2 := apply_regex_patterns_append content pre post
  constructor
  · rw [h1, h2]
    simp [apply_regex_patterns, hp]
  · rw [h1]
    simp [apply_regex_patterns, hp]

/-- Witness for `c3_malformed_rule_isolated`: the malformed rule `"("`
between two valid rules, on concrete content. -/
theorem c3_malformed_rule_isolated_witness :
    (apply_regex_patterns "xaxbxa" (["(a)"] ++ "(" :: ["(b)"])).1
        = (apply_regex_patterns "xaxbxa" (["(a)"] ++ ["(b)"])).1 ∧
    (apply_regex_patterns "xaxbxa" (["(a)"] ++ "(" :: ["(b)"])).2
        = (apply_regex_patterns "xaxbxa" ["(a)"]).2
          ++ invalid_pattern_log "(" :: (apply_regex_patterns "xaxbxa" ["(b)"]).2 :=
  c3_malformed_rule_isolated "xaxbxa" ["(a)"] ["(b)"] "(" (by decide)

/-! ## Claim C4 -/

/-- The match list of one evaluation call is the concatenation, in rule
input order, of each rule's own matches. -/
theorem apply_regex_patterns_flatMap (content : String) (patterns : List String) :
    (apply_regex_patterns content patterns).1
      = patterns.flatMap (rule_matches content) := by
  induction patterns with
  | nil => rfl
  | cons p rest ih =>
    simp only [apply_regex_patterns, List.flatMap_cons, rule_matches]
    cases hc : compile p <;> simp [ih]

/-- A successful search starting at `pos` starts at or after `pos`. -/
theorem searchFrom_le (mf : Nat) : ∀ (fuel : Nat) (re : RE) (s : List Char) (pos : Nat)
    (sp : Nat × Nat × Caps), searchFrom mf fuel re s pos = some sp → pos ≤ sp.1 := by
  intro fuel
  induction fuel with
  | zero => intro re s pos sp h; simp [searchFrom] at h
  | succ fuel ih =>
    intro re s pos sp h
    rw [searchFrom] at h
    by_cases hlen : s.length < pos
    · simp [hlen] at h
    · rw [if_neg hlen] at h
      cases hm : (mall mf re s pos []).head? with
      | some pc =>
          rw [hm] at h
          cases h
          exact Nat.le_refl pos
      | none =>
          rw [hm] at h
          have := ih re s (pos + 1) sp h
          omega

/-- Every span found from `pos` on starts at or after `pos`. -/
theorem findallSpans_le (mf : Nat) : ∀ (fuel : Nat) (re : RE) (s : List Char) (pos : Nat),
    ∀ sp ∈ findallSpans mf fuel re s pos, pos ≤ sp.1 := by
  intro fuel
  induction fuel with
  | zero => intro re s pos sp h; simp [findallSpans] at h
  | succ fuel ih =>
    intro re s pos sp h
    rw [findallSpans] at h
    cases hs : searchFrom mf (s.length + 2 - pos) re s pos with
    | none => rw [hs] at h; simp at h
    | some sp0 =>
      rw [hs] at h
      rcases List.mem_cons.mp h with h0 | h1
      · subst h0; exact searchFrom_le mf _ re s pos sp hs
      · have h2 := ih re s (max sp0.2.1 (sp0.1 + 1)) sp h1
        have h3 := searchFrom_le mf _ re s pos sp0 hs
        omega

/-- The spans of one `findall` call are in strictly increasing order of
start position: within one rule, matches appear in order of occurrence in
the text. -/
theorem findallSpans_sorted (mf : Nat) : ∀ (fuel : Nat) (re : RE) (s : List Char) (pos : Nat),
    (findallSpans mf fuel re s pos).Pairwise fun a b => a.1 < b.1 := by
  intro fuel
  induction fuel with
  | zero => intro re s pos; simp [findallSpans]
  | succ fuel ih =>
    intro re s pos
    rw [findallSpans]
    cases hs : searchFrom mf (s.length + 2 - pos) re s pos with
    | none => simp
    | some sp0 =>
      refine List.Pairwise.cons ?_ (ih re s (max sp0.2.1 (sp0.1 + 1)))
      intro sp hsp
      have := findallSpans_le mf fuel re s (max sp0.2.1 (sp0.1 + 1)) sp hsp
      omega

theorem isPatternWrite_repo_chunk (x : String) :
    isPatternWrite ("Repository: " ++ x ++ "\n") = false := rfl

theorem isPatternWrite_file_chunk (x : String) :
    isPatternWrite ("File: " ++ x ++ "\n") = false := rfl

theorem isPatternWrite_url_chunk (x : String) :
    isPatternWrite ("URL: " ++ x ++ "\n") = false := rfl

theorem isPatternWrite_gen_chunk (x : String) :
    isPatternWrite ("Generated: " ++ x ++ "\n") = false := rfl

theorem isPatternWrite_match_chunk (x : String) :
    isPatternWrite ("Match: " ++ x ++ "\n") = false := rfl

theorem isPatternWrite_pattern_chunk (x : String) :
    isPatternWrite ("Pattern: " ++ x ++ "\n") = true := rfl

theorem isPatternWrite_nl : isPatternWrite "\n" = false := rfl

theorem isPatternWrite_title : isPatternWrite "GitHub .env File Scan Results\n" = false := rfl

theorem isPatternWrite_marker : isPatternWrite "No matches found.\n" = false := rfl

theorem isPatternWrite_eqDelim : isPatternWrite eqDelim = false := by decide

theorem isPatternWrite_dashDelim : isPatternWrite dashDelim = false := by decide

/-- Filtering the per-match writes for rule-label lines recovers the
match list's rule labels, in stored order. -/
theorem filter_matchWrites (ms : List (String × String)) :
    ((ms.flatMap fun pm =>
        ["Pattern: " ++ pm.1 ++ "\n", "Match: " ++ pm.2 ++ "\n", "\n"]).filter
      isPatternWrite)
      = ms.map fun pm => "Pattern: " ++ pm.1 ++ "\n" := by
  induction ms with
  | nil => rfl
  | cons pm rest ih =>
    simp [List.flatMap_cons, List.filter_cons, isPatternWrite_pattern_chunk,
      isPatternWrite_match_chunk, isPatternWrite_nl, ih]

/-- Filtering one Finding's block for rule-label lines recovers its
matches' rule labels, in stored order. -/
theorem filter_resultWrites (r : ScrapeResult) :
    (resultWrites r).filter isPatternWrite
      = r.matches_.map fun pm => "Pattern: " ++ pm.1 ++ "\n" := by
  simp [resultWrites, List.filter_append, List.filter_cons, isPatternWrite_repo_chunk,
    isPatternWrite_file_chunk, isPatternWrite_url_chunk, isPatternWrite_dashDelim,
    isPatternWrite_eqDelim, filter_matchWrites]

/-- Filtering the whole report for rule-label lines recovers, finding by
finding and match by match, the stored order. -/
theorem report_keeps_match_order (now : String) (results : List ScrapeResult) :
    (save_results_writes now results).filter isPatternWrite
      = results.flatMap fun r => r.matches_.map fun pm => "Pattern: " ++ pm.1 ++ "\n" := by
  cases results with
  | nil =>
    simp [save_results_writes, List.filter_cons, isPatternWrite_title,
      isPatternWrite_gen_chunk, isPatternWrite_eqDelim, isPatternWrite_marker]
  | cons r rest =>
    have hblocks : ∀ rs : List ScrapeResult,
        (rs.flatMap resultWrites).filter isPatternWrite
          = rs.flatMap fun r2 => r2.matches_.map fun pm => "Pattern: " ++ pm.1 ++ "\n" := by
      intro rs
      induction rs with
      | nil => rfl
      | cons r2 rest2 ih2 =>
        simp [List.flatMap_cons, List.filter_append, filter_resultWrites, ih2]
    simp [save_results_writes, List.filter_cons, List.filter_append, isPatternWrite_title,
      isPatternWrite_gen_chunk, isPatternWrite_eqDelim, hblocks, filter_resultWrites]

/-- C4: (i) the match list of one evaluation call is grouped by rule in
rule-input order; (ii) within one rule the match spans are in strictly
increasing order of position in the text; (iii) the report writes carry
the stored order unchanged: the rule-label lines of the report are
exactly the accumulated matches' labels in accumulated order — nothing
downstream re-sorts. -/
theorem c4_match_order_preserved :
    (∀ content patterns, (apply_regex_patterns content patterns).1
        = patterns.flatMap (rule_matches content)) ∧
    (∀ mf fuel re s pos,
      (findallSpans mf fuel re s pos).Pairwise fun a b => a.1 < b.1) ∧
    (∀ now results, (save_results_writes now results).filter isPatternWrite
        = results.flatMap fun r => r.matches_.map fun pm => "Pattern: " ++ pm.1 ++ "\n") :=
  ⟨apply_regex_patterns_flatMap, findallSpans_sorted, report_keeps_match_order⟩

/-! ## Claim C2, amended part -/

/-- Appending one element always changes a list. -/
theorem append_singleton_ne_self {α : Type} (acc : List α) (x : α) :
    acc ++ [x] ≠ acc := by
  intro h
  have := congrArg List.length h
  simp at this

/-- C2 (amended): for a candidate file whose fetch returned without an
exception, a Finding is appended if and only if the fetched content is
non-empty AND evaluating it against the rules produced at least one
Match; the appended Finding carries exactly the full match list.  (The
content-non-empty conjunct is forced by the `if content:` guard at
main.py:185: for empty content the rules are never evaluated, even though
a degenerate rule could match the empty string.) -/
theorem c2_finding_iff_matches (net : Network) (patterns : List String)
    (repo : String) (f : EnvFile) (acc : List ScrapeResult) (c : String)
    (h : get_file_content net f.url = Except.ok c) :
    ((scrapeFiles net patterns repo [f] acc).1
        = acc ++ [ScrapeResult.mk repo f.path f.html_url
            (apply_regex_patterns c patterns).1]
      ↔ c ≠ "" ∧ (apply_regex_patterns c patterns).1 ≠ []) ∧
    ((scrapeFiles net patterns repo [f] acc).1 = acc
      ↔ ¬(c ≠ "" ∧ (apply_regex_patterns c patterns).1 ≠ [])) := by
  have hs : (scrapeFiles net patterns repo [f] acc).1
      = if c = "" then acc
        else if (apply_regex_patterns c patterns).1 = [] then acc
        else acc ++ [ScrapeResult.mk repo f.path f.html_url
            (apply_regex_patterns c patterns).1] := by
    simp [scrapeFiles, h]
  rw [hs]
  by_cases hc : c = ""
  · rw [if_pos hc]
    constructor
    · constructor
      · intro heq; exact absurd heq.symm (append_singleton_ne_self acc _)
      · intro hcm; exact absurd hc hcm.1
    · simp [hc]
  · by_cases hm : (apply_regex_patterns c patterns).1 = []
    · rw [if_neg hc, if_pos hm]
      constructor
      · constructor
        · intro heq; exact absurd heq.symm (append_singleton_ne_self acc _)
        · intro hcm; exact absurd hm hcm.2
      · simp [hc, hm]
    · rw [if_neg hc, if_neg hm]
      constructor
      · simp [hc, hm]
      · constructor
        · intro heq; exact absurd heq (append_singleton_ne_self acc _)
        · intro hn; exact absurd ⟨hc, hm⟩ hn

/-- Witness for `c2_finding_iff_matches`: one file whose content decodes
to `"a=b"`, one rule `"(a)"` that matches it. -/
theorem c2_finding_iff_matches_witness :
    ((scrapeFiles netOkContent ["(a)"] "o/r" [envFileW] []).1
        = [] ++ [ScrapeResult.mk "o/r" envFileW.path envFileW.html_url
            (apply_regex_patterns "a=b" ["(a)"]).1]
      ↔ "a=b" ≠ "" ∧ (apply_regex_patterns "a=b" ["(a)"]).1 ≠ []) ∧
    ((scrapeFiles netOkContent ["(a)"] "o/r" [envFileW] []).1 = []
      ↔ ¬("a=b" ≠ "" ∧ (apply_regex_patterns "a=b" ["(a)"]).1 ≠ [])) :=
  c2_finding_iff_matches netOkContent ["(a)"] "o/r" envFileW [] "a=b" rfl

/-! ## Claim C10 -/

/-- The file loop only ever appends to the accumulator: its result is the
incoming accumulator followed by what the same loop produces from an
empty one, and the trace and exception do not depend on the
accumulator. -/
theorem scrapeFiles_append (net : Network) (patterns : List String) (repo : String)
    (files : List EnvFile) : ∀ acc : List ScrapeResult,
    scrapeFiles net patterns repo files acc
      = (acc ++ (scrapeFiles net patterns repo files []).1,
         (scrapeFiles net patterns repo files []).2) := by
  induction files with
  | nil => intro acc; simp [scrapeFiles]
  | cons f rest ih =>
    intro acc
    simp only [scrapeFiles]
    cases hg : get_file_content net f.url with
    | error e => simp
    | ok content =>
      dsimp only
      split_ifs with hc hm
      · rw [ih acc]
      · rw [ih acc]
      · rw [List.nil_append, ih (acc ++ [ScrapeResult.mk repo f.path f.html_url
            (apply_regex_patterns content patterns).1]),
          ih [ScrapeResult.mk repo f.path f.html_url
            (apply_regex_patterns content patterns).1]]
        simp

/-- The repository loop only ever appends to the accumulator. -/
theorem scrapeRepos_append (net : Network) (patterns : List String)
    (repos : List String) : ∀ acc : List ScrapeResult,
    scrapeRepos net patterns repos acc
      = (acc ++ (scrapeRepos net patterns repos []).1,
         (scrapeRepos net patterns repos []).2) := by
  induction repos with
  | nil => intro acc; simp [scrapeRepos]
  | cons r rest ih =>
    intro acc
    simp only [scrapeRepos]
    rw [scrapeFiles_append net patterns r (find_env_files net r) acc]
    cases he : (scrapeFiles net patterns r (find_env_files net r) []).2.2 with
    | some e => simp
    | none =>
      rw [ih (acc ++ (scrapeFiles net patterns r (find_env_files net r) []).1),
        ih ((scrapeFiles net patterns r (find_env_files net r) []).1)]
      simp

/-- C10: `self.results` is append-only and never cleared: a `scrape` call
entered with accumulated results `st` exits with `st` followed by the new
run's Findings (first conjunct), so repeated `scrape` calls accumulate;
and the report body serializes a concatenated results list as the
concatenation of the blocks of both parts, so a later `save_results`
reports all runs, not only the latest (second conjunct). -/
theorem c10_results_append_only :
    (∀ (net : Network) (st : List ScrapeResult) (repos patterns : List String)
      (q : Option String) (maxr : Nat),
      (scrape net st repos patterns q maxr).1
        = st ++ (scrape net [] repos patterns q maxr).1) ∧
    (∀ r1 r2 : List ScrapeResult,
      (r1 ++ r2).flatMap resultWrites
        = r1.flatMap resultWrites ++ r2.flatMap resultWrites) := by
  constructor
  · intro net st repos patterns q maxr
    simp only [scrape]
    rw [scrapeRepos_append]
  · intro r1 r2
    exact List.flatMap_append r1 r2 resultWrites

/-! ## Claim C8 -/

/-- The trace and exception of the file loop do not depend on the
accumulated results. -/
theorem scrapeFiles_trace_acc (net : Network) (patterns : List String) (repo : String)
    (files : List EnvFile) (acc : List ScrapeResult) :
    (scrapeFiles net patterns repo files acc).2
      = (scrapeFiles net patterns repo files []).2 := by
  rw [scrapeFiles_append]

/-- The trace and exception of the repository loop do not depend on the
accumulated results. -/
theorem scrapeRepos_trace_acc (net : Network) (patterns : List String)
    (repos : List String) (acc : List ScrapeResult) :
    (scrapeRepos net patterns repos acc).2
      = (scrapeRepos net patterns repos []).2 := by
  rw [scrapeRepos_append]

/-- `sepState` over a concatenated trace threads its state. -/
theorem sepState_append : ∀ (t1 t2 : List Event) (b : Bool),
    sepState b (t1 ++ t2) = (sepState b t1).bind fun b2 => sepState b2 t2 := by
  intro t1
  induction t1 with
  | nil => intro t2 b; rfl
  | cons e rest ih =>
    intro t2 b
    cases e with
    | fetch u =>
      cases b with
      | false => simpa [sepState] using ih t2 true
      | true => simp [sepState]
    | sleep d => simpa [sepState] using ih t2 false

/-- After the file loop, every pair of content fetches in its trace is
separated by a sleep, and the walk ends right after an unslept fetch
exactly when an exception aborted the loop. -/
theorem scrapeFiles_sep (net : Network) (patterns : List String) (repo : String) :
    ∀ (files : List EnvFile) (acc : List ScrapeResult),
    sepState false (scrapeFiles net patterns repo files acc).2.1
      = some (scrapeFiles net patterns repo files acc).2.2.isSome := by
  intro files
  induction files with
  | nil => intro acc; rfl
  | cons f rest ih =>
    intro acc
    simp only [scrapeFiles]
    cases hg : get_file_content net f.url with
    | error e => rfl
    | ok content =>
      dsimp only
      exact ih _

/-- Fetch/sleep separation for the whole repository loop. -/
theorem scrapeRepos_sep (net : Network) (patterns : List String) :
    ∀ (repos : List String) (acc : List ScrapeResult),
    sepState false (scrapeRepos net patterns repos acc).2.1
      = some (scrapeRepos net patterns repos acc).2.2.isSome := by
  intro repos
  induction repos with
  | nil => intro acc; rfl
  | cons r rest ih =>
    intro acc
    simp only [scrapeRepos]
    cases he : (scrapeFiles net patterns r (find_env_files net r) acc).2.2 with
    | some e =>
      dsimp only
      have h := scrapeFiles_sep net patterns r (find_env_files net r) acc
      rw [he] at h
      exact h
    | none =>
      dsimp only
      rw [sepState_append]
      have h := scrapeFiles_sep net patterns r (find_env_files net r) acc
      rw [he] at h
      rw [h]
      exact ih _

/-- Fetch/sleep accounting for the file loop: one more fetch than sleeps
exactly when an exception aborted it, equal counts otherwise. -/
theorem scrapeFiles_counts (net : Network) (patterns : List String) (repo : String) :
    ∀ (files : List EnvFile) (acc : List ScrapeResult),
    countFetch (scrapeFiles net patterns repo files acc).2.1
      = countSleep (scrapeFiles net patterns repo files acc).2.1
        + (scrapeFiles net patterns repo files acc).2.2.elim 0 (fun _ => 1) := by
  intro files
  induction files with
  | nil => intro acc; rfl
  | cons f rest ih =>
    intro acc
    simp only [scrapeFiles]
    cases hg : get_file_content net f.url with
    | error e => rfl
    | ok content =>
      dsimp only
      have h := ih ((if content = "" then acc
        else if (apply_regex_patterns content patterns).1 = [] then acc
        else acc ++ [ScrapeResult.mk repo f.path f.html_url
          (apply_regex_patterns content patterns).1]))
      simp [countFetch, countSleep, List.countP_cons] at h ⊢
      omega

/-- Fetch/sleep accounting for the repository loop. -/
theorem scrapeRepos_counts (net : Network) (patterns : List String) :
    ∀ (repos : List String) (acc : List ScrapeResult),
    countFetch (scrapeRepos net patterns repos acc).2.1
      = countSleep (scrapeRepos net patterns repos acc).2.1
        + (scrapeRepos net patterns repos acc).2.2.elim 0 (fun _ => 1) := by
  intro repos
  induction repos with
  | nil => intro acc; rfl
  | cons r rest ih =>
    intro acc
    simp only [scrapeRepos]
    cases he : (scrapeFiles net patterns r (find_env_files net r) acc).2.2 with
    | some e =>
      dsimp only
      have h := scrapeFiles_counts net patterns r (find_env_files net r) acc
      rw [he] at h
      exact h
    | none =>
      dsimp only
      have h := scrapeFiles_counts net patterns r (find_env_files net r) acc
      rw [he] at h
      have h2 := ih ((scrapeFiles net patterns r (find_env_files net r) acc).1)
      simp only [countFetch, countSleep, List.countP_append] at h h2 ⊢
      simp only [Option.elim] at h
      omega

/-- Every sleep in the file loop's trace is `time.sleep(0.5)`. -/
theorem scrapeFiles_sleep_total (net : Network) (patterns : List String) (repo : String) :
    ∀ (files : List EnvFile) (acc : List ScrapeResult),
    totalSleepTenths (scrapeFiles net patterns repo files acc).2.1
      = 5 * countSleep (scrapeFiles net patterns repo files acc).2.1 := by
  intro files
  induction files with
  | nil => intro acc; rfl
  | cons f rest ih =>
    intro acc
    simp only [scrapeFiles]
    cases hg : get_file_content net f.url with
    | error e => rfl
    | ok content =>
      dsimp only
      have h := ih ((if content = "" then acc
        else if (apply_regex_patterns content patterns).1 = [] then acc
        else acc ++ [ScrapeResult.mk repo f.path f.html_url
          (apply_regex_patterns content patterns).1]))
      simp [totalSleepTenths, countSleep, List.countP_cons, List.map_cons,
        List.sum_cons] at h ⊢
      omega

/-- Every sleep in the repository loop's trace is `time.sleep(0.5)`. -/
theorem scrapeRepos_sleep_total (net : Network) (patterns : List String) :
    ∀ (repos : List String) (acc : List ScrapeResult),
    totalSleepTenths (scrapeRepos net patterns repos acc).2.1
      = 5 * countSleep (scrapeRepos net patterns repos acc).2.1 := by
  intro repos
  induction repos with
  | nil => intro acc; rfl
  | cons r rest ih =>
    intro acc
    simp only [scrapeRepos]
    cases he : (scrapeFiles net patterns r (find_env_files net r) acc).2.2 with
    | some e =>
      dsimp only
      exact scrapeFiles_sleep_total net patterns r (find_env_files net r) acc
    | none =>
      dsimp only
      have h := scrapeFiles_sleep_total net patterns r (find_env_files net r) acc
      have h2 := ih ((scrapeFiles net patterns r (find_env_files net r) acc).1)
      simp only [totalSleepTenths, countSleep, List.countP_append, List.map_append,
        List.sum_append] at h h2 ⊢
      omega

/-- C8: in any `scrape` run, (i) any two content fetches are separated by
a sleep; (ii) the total slept time is at least `(N - 1) × 0.5s` for `N`
content fetches; (iii) when no exception aborts the run, there is exactly
one `time.sleep(0.5)` per content fetch — the delay is applied after the
fetch whether it failed, returned empty content, or produced matches. -/
theorem c8_delay_between_fetches (net : Network) (st : List ScrapeResult)
    (repos patterns : List String) (q : Option String) (maxr : Nat) :
    delaySeparated (scrape net st repos patterns q maxr).2.1 = true ∧
    5 * (countFetch (scrape net st repos patterns q maxr).2.1 - 1)
      ≤ totalSleepTenths (scrape net st repos patterns q maxr).2.1 ∧
    ((scrape net st repos patterns q maxr).2.2 = none →
      countSleep (scrape net st repos patterns q maxr).2.1
        = countFetch (scrape net st repos patterns q maxr).2.1) := by
  obtain ⟨R, hR⟩ : ∃ R, scrape net st repos patterns q maxr = scrapeRepos net patterns R st :=
    ⟨_, rfl⟩
  rw [hR]
  refine ⟨?_, ?_, ?_⟩
  · have h := scrapeRepos_sep net patterns R st
    simp [delaySeparated, h]
  · have h := scrapeRepos_counts net patterns R st
    have h2 := scrapeRepos_sleep_total net patterns R st
    cases ho : (scrapeRepos net patterns R st).2.2 with
    | none => rw [ho] at h; simp only [Option.elim] at h; omega
    | some e => rw [ho] at h; simp only [Option.elim] at h; omega
  · intro he
    have h := scrapeRepos_counts net patterns R st
    rw [he] at h
    simp only [Option.elim] at h
    omega

/-- Witness for `c8_delay_between_fetches` on a concrete network whose
single fetch succeeds. -/
theorem c8_delay_between_fetches_witness :
    delaySeparated (scrape netOkContent [] ["o/r"] ["(a)"] none 10).2.1 = true ∧
    5 * (countFetch (scrape netOkContent [] ["o/r"] ["(a)"] none 10).2.1 - 1)
      ≤ totalSleepTenths (scrape netOkContent [] ["o/r"] ["(a)"] none 10).2.1 ∧
    countSleep (scrape netOkContent [] ["o/r"] ["(a)"] none 10).2.1
      = countFetch (scrape netOkContent [] ["o/r"] ["(a)"] none 10).2.1 :=
  ⟨(c8_delay_between_fetches netOkContent [] ["o/r"] ["(a)"] none 10).1,
   (c8_delay_between_fetches netOkContent [] ["o/r"] ["(a)"] none 10).2.1,
   (c8_delay_between_fetches netOkContent [] ["o/r"] ["(a)"] none 10).2.2 rfl⟩
